import Mathlib

/-!
Verification of the Conway's Game of Life implementation (src/main.py and
src/app.py; the two files hold identical `gen`, `adjust_grid` and
`get_neighbors` functions and identical main loops, differing only in the
configuration values).  Cells are pairs of Python integers, modelled as
`ℤ × ℤ`; the live-cell set is a `Finset`.  The grid dimensions are globals in
the source; here they are parameters `W H` of the functions that read them,
instantiated at `GRID_WIDTH = GRID_HEIGHT = 40` for main.py.
-/

abbrev Cell : Type := ℤ × ℤ

/-- main.py: `WIDTH, HEIGHT = 800, 800`. -/
def WIDTH : ℕ := 800

def HEIGHT : ℕ := 800

/-- main.py: `TILE_SIZE = 20`. -/
def TILE_SIZE : ℕ := 20

/-- main.py: `GRID_WIDTH = WIDTH // TILE_SIZE` (= 40). -/
def GRID_WIDTH : ℕ := WIDTH / TILE_SIZE

/-- main.py: `GRID_HEIGHT = HEIGHT // TILE_SIZE` (= 40). -/
def GRID_HEIGHT : ℕ := HEIGHT / TILE_SIZE

/-- `get_neighbors(pos)` from main.py lines 66-83: nested loops over
`dx, dy ∈ [-1, 0, 1]`, skipping (`continue`) a whole `dx` column when
`x + dx < 0 or x + dx > GRID_WIDTH`, skipping a `dy` entry when
`y + dy < 0 or y + dy > GRID_HEIGHT`, and skipping `dx == 0 and dy == 0`;
the remaining offsets are appended in order.  The grid dimensions are the
parameters `W H`. -/
def get_neighbors (W H : ℤ) (pos : Cell) : List Cell :=
  let x := pos.1
  let y := pos.2
  ([-1, 0, 1] : List ℤ).flatMap fun dx =>
    if x + dx < 0 ∨ x + dx > W then [] else
      ([-1, 0, 1] : List ℤ).flatMap fun dy =>
        if y + dy < 0 ∨ y + dy > H then [] else
          if dx = 0 ∧ dy = 0 then []
          else [(x + dx, y + dy)]

/-- `len(list(filter(lambda x: x in positions, neighbors)))` for
`neighbors = get_neighbors(position)`: the live-neighbor count used by both
passes of `adjust_grid`. -/
def liveNeighborCount (W H : ℤ) (positions : Finset Cell) (c : Cell) : ℕ :=
  ((get_neighbors W H c).filter (fun p => p ∈ positions)).length

/-- `adjust_grid(positions)` from main.py lines 38-64: the first pass keeps
every live cell whose live-neighbor count is in `[2, 3]` and accumulates
`all_neighbors`, the union of the neighbor lists of all live cells; the
second pass adds every member of `all_neighbors` whose live-neighbor count
is exactly 3.  The result set is the union of the two passes. -/
def adjust_grid (W H : ℤ) (positions : Finset Cell) : Finset Cell :=
  let all_neighbors : Finset Cell :=
    positions.biUnion fun position => (get_neighbors W H position).toFinset
  let survivors : Finset Cell :=
    positions.filter fun position =>
      liveNeighborCount W H positions position = 2 ∨
      liveNeighborCount W H positions position = 3
  let births : Finset Cell :=
    all_neighbors.filter fun position => liveNeighborCount W H positions position = 3
  survivors ∪ births

/-- The pointer-press branch of the event loop (main.py lines 119-122):
`if pos in positions: positions.remove(pos) else: positions.add(pos)`. -/
def toggle (positions : Finset Cell) (pos : Cell) : Finset Cell :=
  if pos ∈ positions then positions.erase pos else insert pos positions

/-- `gen(num)` from main.py lines 20-21:
`set([(random.randrange(0, GRID_HEIGHT), random.randrange(0, GRID_WIDTH)) for _ in range(num)])`.
The outcomes of the `num` pairs of `random.randrange` draws are modelled by
the oracle `draw : ℕ → Cell` giving the pair drawn at each iteration; the
range constraints on `randrange` become hypotheses on `draw` in the
theorems. -/
def gen (num : ℕ) (draw : ℕ → Cell) : Finset Cell :=
  ((List.range num).map draw).toFinset

/-- main.py line 89: `update_freq = 120`. -/
def update_freq : ℕ := 120

/-- The mutable state of `main`'s loop (main.py lines 85-100): the loop flag
`running`, the pause flag `playing`, the tick counter `count` and the
live-cell set `positions`.  The extra ghost field `gens` counts the
invocations of `adjust_grid`, so that "exactly one generation advance" is a
statement about the model. -/
structure LoopState where
  running : Bool
  playing : Bool
  count : ℕ
  positions : Finset Cell
  gens : ℕ

/-- The pygame events the loop reacts to (main.py lines 104-138): `QUIT`,
`MOUSEBUTTONDOWN` at pixel `(px, py)` (what `pygame.mouse.get_pos()`
returns), and `KEYDOWN` for space, c and g.  A g-key event carries the
outcome `r` of `random.randrange(4, 10)` and the oracle `draw` for the
coordinate draws inside `gen`. -/
inductive Event where
  | quit : Event
  | mouseDown (px py : ℕ) : Event
  | keySpace : Event
  | keyC : Event
  | keyG (r : ℕ) (draw : ℕ → Cell) : Event

/-- One arm of the event loop (main.py lines 104-138).  A mouse press at
pixel `(px, py)` toggles cell `(px // TILE_SIZE, py // TILE_SIZE)`; space
flips `playing`; c clears `positions`, forces `playing = False` and resets
`count`; g replaces `positions` with `gen(r * GRID_WIDTH)`. -/
def handleEvent (s : LoopState) (e : Event) : LoopState :=
  match e with
  | .quit => { s with running := false }
  | .mouseDown px py =>
      { s with positions :=
          toggle s.positions (((px / TILE_SIZE : ℕ) : ℤ), ((py / TILE_SIZE : ℕ) : ℤ)) }
  | .keySpace => { s with playing := !s.playing }
  | .keyC => { s with positions := ∅, playing := false, count := 0 }
  | .keyG r draw => { s with positions := gen (r * GRID_WIDTH) draw }

/-- The clock part of one loop iteration (main.py lines 95-100):
`if playing: count += 1`, then `if count >= update_freq: count = 0;
positions = adjust_grid(positions)`.  The ghost counter `gens` records the
`adjust_grid` invocation. -/
def tick (s : LoopState) : LoopState :=
  let c := if s.playing then s.count + 1 else s.count
  if update_freq ≤ c then
    { s with count := 0,
             positions := adjust_grid (GRID_WIDTH : ℤ) (GRID_HEIGHT : ℤ) s.positions,
             gens := s.gens + 1 }
  else
    { s with count := c }

/-- One full iteration of `main`'s while loop (main.py lines 92-142): the
clock step followed by processing the frame's pending events in order
(`for event in pygame.event.get()`). -/
def frame (events : List Event) (s : LoopState) : LoopState :=
  events.foldl handleEvent (tick s)

/-! ## Helper lemmas -/

/-- Membership in `get_neighbors`: exactly the cells at Chebyshev distance 1
whose components lie in `[0, W] × [0, H]` (both bounds inclusive). -/
lemma mem_get_neighbors (W H x y a b : ℤ) :
    (a, b) ∈ get_neighbors W H (x, y) ↔
      (x - 1 ≤ a ∧ a ≤ x + 1 ∧ y - 1 ≤ b ∧ b ≤ y + 1 ∧ ¬(a = x ∧ b = y) ∧
       0 ≤ a ∧ a ≤ W ∧ 0 ≤ b ∧ b ≤ H) := by
  simp only [get_neighbors, List.mem_flatMap, List.mem_cons, List.not_mem_nil, or_false,
    List.mem_singleton]
  constructor
  · rintro ⟨dx, hdx, h⟩
    by_cases h1 : x + dx < 0 ∨ x + dx > W
    · rw [if_pos h1] at h
      exact absurd h (List.not_mem_nil _)
    rw [if_neg h1] at h
    simp only [List.mem_flatMap, List.mem_cons, List.not_mem_nil, or_false,
      List.mem_singleton] at h
    obtain ⟨dy, hdy, h⟩ := h
    by_cases h2 : y + dy < 0 ∨ y + dy > H
    · rw [if_pos h2] at h
      exact absurd h (List.not_mem_nil _)
    rw [if_neg h2] at h
    by_cases h3 : dx = 0 ∧ dy = 0
    · rw [if_pos h3] at h
      exact absurd h (List.not_mem_nil _)
    rw [if_neg h3] at h
    simp only [List.mem_singleton, Prod.mk.injEq] at h
    obtain ⟨ha, hb⟩ := h
    omega
  · rintro ⟨h1, h2, h3, h4, h5, h6, h7, h8, h9⟩
    refine ⟨a - x, by omega, ?_⟩
    rw [if_neg (by omega)]
    simp only [List.mem_flatMap, List.mem_cons, List.not_mem_nil, or_false,
      List.mem_singleton]
    refine ⟨b - y, by omega, ?_⟩
    rw [if_neg (by omega), if_neg (by omega)]
    simp only [List.mem_singleton, Prod.mk.injEq]
    omega

/-- A nonzero live-neighbor count exhibits a live neighbor. -/
lemma exists_live_neighbor (W H : ℤ) (S : Finset Cell) (c : Cell)
    (h : liveNeighborCount W H S c ≠ 0) :
    ∃ n, n ∈ S ∧ n ∈ get_neighbors W H c := by
  unfold liveNeighborCount at h
  rcases List.exists_mem_of_length_pos (Nat.pos_of_ne_zero h) with ⟨n, hn⟩
  rw [List.mem_filter] at hn
  exact ⟨n, by simpa using hn.2, hn.1⟩

/-- Neighborhood is symmetric for in-bounds cells: if `n` is listed among the
neighbors of `c` and `c` itself lies in `[0, W] × [0, H]`, then `c` is listed
among the neighbors of `n`. -/
lemma mem_get_neighbors_symm (W H : ℤ) (c n : Cell)
    (hn : n ∈ get_neighbors W H c)
    (hb : 0 ≤ c.1 ∧ c.1 ≤ W ∧ 0 ≤ c.2 ∧ c.2 ≤ H) :
    c ∈ get_neighbors W H n := by
  obtain ⟨x, y⟩ := c
  obtain ⟨a, b⟩ := n
  rw [mem_get_neighbors] at hn ⊢
  simp only at hb
  omega

/-- Membership in `adjust_grid`: a cell is in the next generation iff it is a
surviving live cell (count 2 or 3) or a member of `all_neighbors` with
count exactly 3. -/
lemma mem_adjust_grid (W H : ℤ) (S : Finset Cell) (c : Cell) :
    c ∈ adjust_grid W H S ↔
      ((c ∈ S ∧ (liveNeighborCount W H S c = 2 ∨ liveNeighborCount W H S c = 3)) ∨
       ((∃ p ∈ S, c ∈ get_neighbors W H p) ∧ liveNeighborCount W H S c = 3)) := by
  simp [adjust_grid, Finset.mem_union, Finset.mem_filter, Finset.mem_biUnion,
    List.mem_toFinset]

/-! ## Claim theorems -/

/-- C1 (counterexample): the birth rule does not hold for every coordinate.
With `S = {(0,0), (0,1), (0,2)}`, the out-of-bounds dead cell `(-1, 1)` has
live-neighbor count exactly 3 (its only in-bounds neighbors are the three
live cells), yet it is not a member of `adjust_grid S`, because
`all_neighbors` only collects coordinates that pass the bounds check. -/
theorem birth_rule_counterexample :
    liveNeighborCount (GRID_WIDTH : ℤ) (GRID_HEIGHT : ℤ)
        ({(0, 0), (0, 1), (0, 2)} : Finset Cell) (-1, 1) = 3 ∧
    ((-1, 1) : Cell) ∉ adjust_grid (GRID_WIDTH : ℤ) (GRID_HEIGHT : ℤ)
        ({(0, 0), (0, 1), (0, 2)} : Finset Cell) := by
  decide

/-- C1 (amended): birth rule for cells that are live or in bounds.  For every
live-cell set `S` and coordinate `c` whose live-neighbor count in `S` is
exactly 3, if `c ∈ S` or `c` lies within the inclusive bounds
`[0, GRID_WIDTH] × [0, GRID_HEIGHT]`, then `c ∈ adjust_grid S`. -/
theorem birth_rule_amended (W H : ℤ) (S : Finset Cell) (c : Cell)
    (h3 : liveNeighborCount W H S c = 3)
    (hc : c ∈ S ∨ (0 ≤ c.1 ∧ c.1 ≤ W ∧ 0 ≤ c.2 ∧ c.2 ≤ H)) :
    c ∈ adjust_grid W H S := by
  rw [mem_adjust_grid]
  rcases hc with hc | hc
  · exact Or.inl ⟨hc, Or.inr h3⟩
  · refine Or.inr ⟨?_, h3⟩
    obtain ⟨n, hnS, hn⟩ := exists_live_neighbor W H S c (by omega)
    exact ⟨n, hnS, mem_get_neighbors_symm W H c n hn hc⟩

/-- Witness for C1 (amended): the in-bounds dead cell `(1, 1)` has exactly
3 live neighbors in `{(0,0), (0,1), (0,2)}` and is born. -/
theorem birth_rule_amended_witness :
    liveNeighborCount (GRID_WIDTH : ℤ) (GRID_HEIGHT : ℤ)
        ({(0, 0), (0, 1), (0, 2)} : Finset Cell) (1, 1) = 3 ∧
    ((1, 1) : Cell) ∈ adjust_grid (GRID_WIDTH : ℤ) (GRID_HEIGHT : ℤ)
        ({(0, 0), (0, 1), (0, 2)} : Finset Cell) :=
  ⟨by decide,
   birth_rule_amended (GRID_WIDTH : ℤ) (GRID_HEIGHT : ℤ)
     ({(0, 0), (0, 1), (0, 2)} : Finset Cell) (1, 1) (by decide) (by decide)⟩

/-- C2: survival rule.  Every live cell whose live-neighbor count is exactly
2 or exactly 3 is a member of the next generation. -/
theorem survival_rule (W H : ℤ) (S : Finset Cell) (c : Cell) (hcS : c ∈ S)
    (hcount : liveNeighborCount W H S c = 2 ∨ liveNeighborCount W H S c = 3) :
    c ∈ adjust_grid W H S := by
  rw [mem_adjust_grid]
  exact Or.inl ⟨hcS, hcount⟩

/-- Witness for C2: in the blinker `{(1,2), (2,2), (3,2)}` the center cell
`(2, 2)` has exactly 2 live neighbors and survives. -/
theorem survival_rule_witness :
    ((2, 2) : Cell) ∈ ({(1, 2), (2, 2), (3, 2)} : Finset Cell) ∧
    liveNeighborCount (GRID_WIDTH : ℤ) (GRID_HEIGHT : ℤ)
        ({(1, 2), (2, 2), (3, 2)} : Finset Cell) (2, 2) = 2 ∧
    ((2, 2) : Cell) ∈ adjust_grid (GRID_WIDTH : ℤ) (GRID_HEIGHT : ℤ)
        ({(1, 2), (2, 2), (3, 2)} : Finset Cell) :=
  ⟨by decide, by decide,
   survival_rule (GRID_WIDTH : ℤ) (GRID_HEIGHT : ℤ)
     ({(1, 2), (2, 2), (3, 2)} : Finset Cell) (2, 2) (by decide)
     (Or.inl (by decide))⟩

/-- C3: death rule.  A live cell whose live-neighbor count is neither 2 nor
3 is absent from the next generation, and a dead cell whose count is not
exactly 3 is absent from the next generation. -/
theorem death_rule (W H : ℤ) (S : Finset Cell) (c : Cell)
    (h : (c ∈ S ∧ liveNeighborCount W H S c ≠ 2 ∧ liveNeighborCount W H S c ≠ 3) ∨
         (c ∉ S ∧ liveNeighborCount W H S c ≠ 3)) :
    c ∉ adjust_grid W H S := by
  intro hmem
  rw [mem_adjust_grid] at hmem
  rcases h with ⟨_, hne2, hne3⟩ | ⟨hnS, hne3⟩
  · rcases hmem with ⟨_, h2 | h3⟩ | ⟨_, h3⟩
    · exact hne2 h2
    · exact hne3 h3
    · exact hne3 h3
  · rcases hmem with ⟨hS, _⟩ | ⟨_, h3⟩
    · exact hnS hS
    · exact hne3 h3

/-- Witness for C3: the isolated live cell `(0, 0)` (count 0) dies. -/
theorem death_rule_witness :
    (((0, 0) : Cell) ∈ ({(0, 0)} : Finset Cell) ∧
     liveNeighborCount (GRID_WIDTH : ℤ) (GRID_HEIGHT : ℤ) ({(0, 0)} : Finset Cell) (0, 0) ≠ 2 ∧
     liveNeighborCount (GRID_WIDTH : ℤ) (GRID_HEIGHT : ℤ) ({(0, 0)} : Finset Cell) (0, 0) ≠ 3) ∧
    ((0, 0) : Cell) ∉ adjust_grid (GRID_WIDTH : ℤ) (GRID_HEIGHT : ℤ)
        ({(0, 0)} : Finset Cell) :=
  ⟨by decide,
   death_rule (GRID_WIDTH : ℤ) (GRID_HEIGHT : ℤ) ({(0, 0)} : Finset Cell) (0, 0)
     (Or.inl (by decide))⟩

/-- C4: neighbor contract with the inclusive boundary quirk.  The list
returned by `get_neighbors` contains exactly the offsets
`(x + dx, y + dy)`, `(dx, dy) ∈ {-1,0,1}² \x7b minus (0,0)\x7d`, whose components
lie in `[0, W]` and `[0, H]` (upper bounds inclusive); in the interior
(`0 < x < W`, `0 < y < H`) all 8 neighbors are returned. -/
theorem get_neighbors_contract (W H x y : ℤ) :
    (∀ a b : ℤ, (a, b) ∈ get_neighbors W H (x, y) ↔
       ((∃ dx dy : ℤ, (dx = -1 ∨ dx = 0 ∨ dx = 1) ∧ (dy = -1 ∨ dy = 0 ∨ dy = 1) ∧
           ¬(dx = 0 ∧ dy = 0) ∧ a = x + dx ∧ b = y + dy) ∧
        0 ≤ a ∧ a ≤ W ∧ 0 ≤ b ∧ b ≤ H)) ∧
    (0 < x → x < W → 0 < y → y < H → (get_neighbors W H (x, y)).length = 8) := by
  constructor
  · intro a b
    rw [mem_get_neighbors]
    constructor
    · rintro ⟨h1, h2, h3, h4, h5, h6, h7, h8, h9⟩
      exact ⟨⟨a - x, b - y, by omega, by omega, by omega, by omega, by omega⟩,
        h6, h7, h8, h9⟩
    · rintro ⟨⟨dx, dy, hdx, hdy, hne, rfl, rfl⟩, hb⟩
      refine ⟨by omega, by omega, by omega, by omega, by omega, hb⟩
  · intro hx1 hx2 hy1 hy2
    have h1 : ¬(x + -1 < 0 ∨ x + -1 > W) := by omega
    have h2 : ¬(x + 0 < 0 ∨ x + 0 > W) := by omega
    have h3 : ¬(x + 1 < 0 ∨ x + 1 > W) := by omega
    have h4 : ¬(y + -1 < 0 ∨ y + -1 > H) := by omega
    have h5 : ¬(y + 0 < 0 ∨ y + 0 > H) := by omega
    have h6 : ¬(y + 1 < 0 ∨ y + 1 > H) := by omega
    simp [get_neighbors, h1, h2, h3, h4, h5, h6]
    split_ifs <;> simp_all

/-- Witness for C4: at the interior cell `(5, 7)` of the 40 × 40 grid the
neighbor list has length 8. -/
theorem get_neighbors_contract_witness :
    (0 : ℤ) < 5 ∧ (5 : ℤ) < (GRID_WIDTH : ℤ) ∧ (0 : ℤ) < 7 ∧ (7 : ℤ) < (GRID_HEIGHT : ℤ) ∧
    (get_neighbors (GRID_WIDTH : ℤ) (GRID_HEIGHT : ℤ) (5, 7)).length = 8 :=
  ⟨by decide, by decide, by decide, by decide,
   (get_neighbors_contract (GRID_WIDTH : ℤ) (GRID_HEIGHT : ℤ) 5 7).2
     (by decide) (by decide) (by decide) (by decide)⟩

/-- A paused iteration with no events and `count < update_freq` is a no-op
on the loop state. -/
lemma frame_paused_fixed (run : Bool) (c g : ℕ) (pos : Finset Cell)
    (hc : c < update_freq) :
    frame [] ⟨run, false, c, pos, g⟩ = ⟨run, false, c, pos, g⟩ := by
  have h : ¬ update_freq ≤ c := by omega
  simp [frame, tick, h]

/-- While running with no events, `k` iterations (`k < update_freq`) just
count up to `k`. -/
lemma frame_run_iterate (k : ℕ) (run : Bool) (g : ℕ) (pos : Finset Cell)
    (hk : k < update_freq) :
    (frame [])^[k] ⟨run, true, 0, pos, g⟩ = ⟨run, true, k, pos, g⟩ := by
  induction k with
  | zero => rfl
  | succ n ih =>
      rw [Function.iterate_succ_apply', ih (by omega)]
      have h : ¬ update_freq ≤ n + 1 := by omega
      simp [frame, tick, h]

/-- C5: clock cadence.  Starting Paused with tick counter `c < update_freq`,
any number `N < update_freq` of event-free iterations invokes `adjust_grid`
zero times and changes nothing; starting Running with counter 0, exactly
`update_freq` event-free iterations invoke `adjust_grid` exactly once
(the ghost invocation counter `gens` goes from `g` to `g + 1`), replace
`positions` with `adjust_grid positions`, and leave the counter reset
to 0. -/
theorem clock_cadence (N c g : ℕ) (run : Bool) (pos : Finset Cell)
    (hc : c < update_freq) (hN : N < update_freq) :
    (frame [])^[N] ⟨run, false, c, pos, g⟩ = ⟨run, false, c, pos, g⟩ ∧
    (frame [])^[update_freq] ⟨run, true, 0, pos, g⟩ =
      ⟨run, true, 0, adjust_grid (GRID_WIDTH : ℤ) (GRID_HEIGHT : ℤ) pos, g + 1⟩ := by
  constructor
  · exact Function.iterate_fixed (frame_paused_fixed run c g pos hc) N
  · have h119 : (frame [])^[119] (⟨run, true, 0, pos, g⟩ : LoopState) =
        ⟨run, true, 119, pos, g⟩ :=
      frame_run_iterate 119 run g pos (by decide)
    have h120 : update_freq = 119 + 1 := by decide
    rw [h120, Function.iterate_succ_apply', h119]
    simp [frame, tick, update_freq]

/-- Witness for C5 at `N = 3`, `c = 5`, the empty grid. -/
theorem clock_cadence_witness :
    (5 < update_freq ∧ 3 < update_freq) ∧
    ((frame [])^[3] ⟨true, false, 5, ∅, 0⟩ = (⟨true, false, 5, ∅, 0⟩ : LoopState) ∧
     (frame [])^[update_freq] ⟨true, true, 0, ∅, 0⟩ =
       (⟨true, true, 0, adjust_grid (GRID_WIDTH : ℤ) (GRID_HEIGHT : ℤ) ∅, 0 + 1⟩ : LoopState)) :=
  ⟨⟨by decide, by decide⟩, clock_cadence 3 5 0 true ∅ (by decide) (by decide)⟩

/-- C6: the blinker oscillates with period 2 on the configured 40 × 40
grid: the horizontal line `{(1,2), (2,2), (3,2)}` maps to the vertical line
`{(2,1), (2,2), (2,3)}` and back. -/
theorem blinker_period_two :
    adjust_grid (GRID_WIDTH : ℤ) (GRID_HEIGHT : ℤ)
        ({(1, 2), (2, 2), (3, 2)} : Finset Cell) =
      ({(2, 1), (2, 2), (2, 3)} : Finset Cell) ∧
    adjust_grid (GRID_WIDTH : ℤ) (GRID_HEIGHT : ℤ)
        ({(2, 1), (2, 2), (2, 3)} : Finset Cell) =
      ({(1, 2), (2, 2), (3, 2)} : Finset Cell) := by
  decide

/-- C7: the pointer-press toggle is self-inverse.  Toggling the same cell
twice restores the membership of that cell and of every other coordinate. -/
theorem toggle_self_inverse (S : Finset Cell) (c d : Cell) :
    d ∈ toggle (toggle S c) c ↔ d ∈ S := by
  by_cases hc : c ∈ S
  · have h1 : toggle S c = S.erase c := by rw [toggle, if_pos hc]
    rw [h1, toggle, if_neg (Finset.not_mem_erase c S), Finset.insert_erase hc]
  · have h1 : toggle S c = insert c S := by rw [toggle, if_neg hc]
    rw [h1, toggle, if_pos (Finset.mem_insert_self c S), Finset.erase_insert hc]

/-- C8: randomize bounds.  For any outcome `draw` of the random draws whose
values respect the `randrange` bounds, `gen num draw` has at most `num`
elements, all within `[0, GRID_HEIGHT) × [0, GRID_WIDTH)`; and the g-key
event replaces `positions` with `gen (r * GRID_WIDTH) draw` where `r` is
the `randrange(4, 10)` outcome. -/
theorem gen_randomize_bounds (num : ℕ) (draw : ℕ → Cell)
    (hdraw : ∀ i < num, 0 ≤ (draw i).1 ∧ (draw i).1 < (GRID_HEIGHT : ℤ) ∧
                        0 ≤ (draw i).2 ∧ (draw i).2 < (GRID_WIDTH : ℤ)) :
    (gen num draw).card ≤ num ∧
    (∀ p ∈ gen num draw, 0 ≤ p.1 ∧ p.1 < (GRID_HEIGHT : ℤ) ∧
                         0 ≤ p.2 ∧ p.2 < (GRID_WIDTH : ℤ)) ∧
    (∀ s : LoopState, ∀ r : ℕ,
       (handleEvent s (Event.keyG r draw)).positions = gen (r * GRID_WIDTH) draw) := by
  refine ⟨?_, ?_, fun s r => rfl⟩
  · calc (gen num draw).card ≤ ((List.range num).map draw).length :=
          List.toFinset_card_le _
      _ = num := by simp
  · intro p hp
    simp only [gen, List.mem_toFinset, List.mem_map] at hp
    obtain ⟨i, hi, rfl⟩ := hp
    exact hdraw i (List.mem_range.mp hi)

/-- Witness for C8 at `num = 2` and the constant draw `(0, 0)`. -/
theorem gen_randomize_bounds_witness :
    (∀ i < 2, 0 ≤ ((fun _ => ((0, 0) : Cell)) i).1 ∧
              ((fun _ => ((0, 0) : Cell)) i).1 < (GRID_HEIGHT : ℤ) ∧
              0 ≤ ((fun _ => ((0, 0) : Cell)) i).2 ∧
              ((fun _ => ((0, 0) : Cell)) i).2 < (GRID_WIDTH : ℤ)) ∧
    ((gen 2 (fun _ => ((0, 0) : Cell))).card ≤ 2 ∧
     (∀ p ∈ gen 2 (fun _ => ((0, 0) : Cell)),
        0 ≤ p.1 ∧ p.1 < (GRID_HEIGHT : ℤ) ∧ 0 ≤ p.2 ∧ p.2 < (GRID_WIDTH : ℤ)) ∧
     (∀ s : LoopState, ∀ r : ℕ,
        (handleEvent s (Event.keyG r (fun _ => ((0, 0) : Cell)))).positions =
          gen (r * GRID_WIDTH) (fun _ => ((0, 0) : Cell)))) :=
  ⟨by decide, gen_randomize_bounds 2 (fun _ => ((0, 0) : Cell)) (by decide)⟩

/-- The clock step keeps the tick counter below `update_freq`. -/
lemma tick_count_lt (s : LoopState) : (tick s).count < update_freq := by
  by_cases hp : s.playing <;> simp [tick, hp, update_freq] <;> split <;> simp <;> omega

/-- Every event handler keeps the tick counter below `update_freq`. -/
lemma handleEvent_count_lt (s : LoopState) (e : Event)
    (h : s.count < update_freq) : (handleEvent s e).count < update_freq := by
  cases e <;> simp [handleEvent, update_freq] at h ⊢ <;> omega

/-- Processing any event list keeps the tick counter below `update_freq`. -/
lemma foldl_handleEvent_count_lt (evs : List Event) (s : LoopState)
    (h : s.count < update_freq) :
    (evs.foldl handleEvent s).count < update_freq := by
  induction evs generalizing s with
  | nil => simpa
  | cons e tl ih => exact ih _ (handleEvent_count_lt s e h)

/-- C9: tick-counter invariant.  If `count < update_freq` at the start of a
loop iteration, it holds again after the clock step and any sequence of
events; and the c key sets `count = 0` and forces `playing = false`
regardless of the current state. -/
theorem tick_counter_invariant (evs : List Event) (s : LoopState)
    (h : s.count < update_freq) :
    (frame evs s).count < update_freq ∧
    (∀ t : LoopState, (handleEvent t Event.keyC).count = 0 ∧
                      (handleEvent t Event.keyC).playing = false) :=
  ⟨foldl_handleEvent_count_lt evs (tick s) (tick_count_lt s),
   fun _ => ⟨rfl, rfl⟩⟩

/-- Witness for C9: a full iteration (space, click, g, c in one frame) from
a running state with `count = 119`. -/
theorem tick_counter_invariant_witness :
    (119 < update_freq) ∧
    ((frame [Event.keySpace, Event.mouseDown 30 50,
             Event.keyG 4 (fun _ => ((0, 0) : Cell)), Event.keyC]
        ⟨true, true, 119, ∅, 0⟩).count < update_freq ∧
     (∀ t : LoopState, (handleEvent t Event.keyC).count = 0 ∧
                       (handleEvent t Event.keyC).playing = false)) :=
  ⟨by decide,
   tick_counter_invariant
     [Event.keySpace, Event.mouseDown 30 50,
      Event.keyG 4 (fun _ => ((0, 0) : Cell)), Event.keyC]
     ⟨true, true, 119, ∅, 0⟩ (by decide)⟩

/-- C10: no spontaneous generation.  Every cell of the next generation lies
in `S` or in the union of the neighbor lists of the members of `S`; hence
every newly born cell lies within the inclusive bounds `[0, W] × [0, H]`;
and the empty set maps to the empty set. -/
theorem no_spontaneous_generation (W H : ℤ) (S : Finset Cell) :
    (∀ c ∈ adjust_grid W H S, c ∈ S ∨ ∃ p ∈ S, c ∈ get_neighbors W H p) ∧
    (∀ c ∈ adjust_grid W H S, c ∉ S →
       0 ≤ c.1 ∧ c.1 ≤ W ∧ 0 ≤ c.2 ∧ c.2 ≤ H) ∧
    adjust_grid W H (∅ : Finset Cell) = ∅ := by
  refine ⟨?_, ?_, ?_⟩
  · intro c hc
    rw [mem_adjust_grid] at hc
    rcases hc with ⟨h, _⟩ | ⟨h, _⟩
    · exact Or.inl h
    · exact Or.inr h
  · intro c hc hns
    rw [mem_adjust_grid] at hc
    rcases hc with ⟨h, _⟩ | ⟨⟨p, _, hmem⟩, _⟩
    · exact absurd h hns
    · obtain ⟨px, py⟩ := p
      obtain ⟨cx, cy⟩ := c
      rw [mem_get_neighbors] at hmem
      simp only
      omega
  · rfl

/-- Witness for C10: the newborn blinker cell `(2, 1)` was not in the
horizontal blinker and lies within the inclusive bounds. -/
theorem no_spontaneous_generation_witness :
    ((2, 1) : Cell) ∈ adjust_grid (GRID_WIDTH : ℤ) (GRID_HEIGHT : ℤ)
        ({(1, 2), (2, 2), (3, 2)} : Finset Cell) ∧
    ((2, 1) : Cell) ∉ ({(1, 2), (2, 2), (3, 2)} : Finset Cell) ∧
    (0 ≤ (2 : ℤ) ∧ (2 : ℤ) ≤ (GRID_WIDTH : ℤ) ∧
     0 ≤ (1 : ℤ) ∧ (1 : ℤ) ≤ (GRID_HEIGHT : ℤ)) :=
  ⟨by decide, by decide,
   (no_spontaneous_generation (GRID_WIDTH : ℤ) (GRID_HEIGHT : ℤ)
       ({(1, 2), (2, 2), (3, 2)} : Finset Cell)).2.1 (2, 1)
     (by decide) (by decide)⟩
